import Mathlib

set_option autoImplicit false

/-!
Verification of the extension/plugin framework of `appkit`
(`appkit/extensionmanager.py`, `appkit/application/services.py`).

The Python code is shallowly embedded: Python classes become `PyClass`
values (identity, superclass ids, the possibly inherited
`__extension_name__` attribute), the registry dict becomes an
insertion-ordered association list, raised exceptions become values of
`EMError` carrying the exact message the code formats, and the service
mixin's object identities are modelled with an allocation counter.
-/

deriving instance DecidableEq for Except

namespace ExtMgr

/-- Model of a Python class object.  `ancestors` holds the ids of the class
itself and of all its (transitive) superclasses, so that
`issubclass(a, b)` is `b.id ∈ a.ancestors`; `extName` is the value of the
(possibly inherited) `__extension_name__` attribute, `none` when
`hasattr` is false; `ctorRaises` records whether calling the class (its
`__init__`) raises. -/
structure PyClass where
  id : Nat
  module : String
  name : String
  ancestors : List Nat
  extName : Option String
  ctorRaises : Bool
  deriving DecidableEq, Repr

/-- Model of `issubclass(a, b)`. -/
def pyIssubclass (a b : PyClass) : Bool :=
  a.ancestors.contains b.id

/-- Id reserved for `appkit.extensionmanager.Extension`. -/
def extensionId : Nat := 0

/-- Id reserved for `appkit.application.services.Service`. -/
def serviceId : Nat := 1

/-- The class `appkit.extensionmanager.Extension`, the capability marker
every point and extension class must descend from. -/
def Extension : PyClass :=
  { id := extensionId, module := "appkit.extensionmanager", name := "Extension",
    ancestors := [extensionId], extName := none, ctorRaises := false }

/-- The class `appkit.application.services.Service`, the distinguished
service extension point (`class Service(application.Extension)`). -/
def Service : PyClass :=
  { id := serviceId, module := "appkit.application.services", name := "Service",
    ancestors := [serviceId, extensionId], extName := none, ctorRaises := false }

/-- Python `"{}.{}".format(cls.__module__, cls.__name__)`. -/
def fullClsName (c : PyClass) : String :=
  c.module ++ "." ++ c.name

/-- Message of the `TypeError` raised when a class is not an `Extension`
subclass (used both by `register_extension_point` and
`register_extension_class`). -/
def notValidExtensionMsg (c : PyClass) : String :=
  "Class " ++ fullClsName c ++
    " is not a valid extension (must a subclass of appkit.app.Extension)"

/-- Message of the `TypeError` raised when an extension class is passed to
`register_extension_point`. -/
def extensionAsPointMsg : String :=
  "Attempt to register an extension as extension point"

/-- Message of the `ExtensionManagerError` raised on a duplicated point. -/
def duplicatePointMsg (clsname : String) : String :=
  "Extension point " ++ clsname ++ " already registered"

/-- Message of the `ExtensionManagerError` raised on a hierarchy conflict
between two extension points. -/
def hierarchyConflictMsg (cls1 cls2 : String) : String :=
  "Extension point " ++ cls1 ++ " is a subclass of " ++ cls2 ++ " (or viceversa)"

/-- Message of the `TypeError` raised when the class has no
`__extension_name__` attribute. -/
def missingExtensionNameMsg (c : PyClass) : String :=
  "Class " ++ fullClsName c ++
    " is not a valid extension (must define a __extension_name__\x27 attribute)"

/-- Message of the `ExtensionManagerError` raised when a class matches no
registered extension point. -/
def noMatchingPointMsg (c : PyClass) : String :=
  "Class " ++ fullClsName c ++ " doesn\x27t match any extension point"

/-- Message of the `ExtensionManagerError` raised on a name collision. -/
def nameCollisionMsg (cls other : String) : String :=
  "Class " ++ cls ++ " can\x27t be registered, name already registered by " ++ other

/-- Message of the `TypeError` raised by `_get_extension_class` when the
point is not an `Extension` subclass. -/
def pointMustBeExtensionMsg : String :=
  "extension_point must be a subclass of appkit.extensionmanager.Extension."

/-- Message of the `TypeError` raised by `_get_extension_class` when the
point was never registered. -/
def invalidPointMsg (c : PyClass) : String :=
  "Invalid extension_point \x27" ++ fullClsName c ++ "\x27"

/-- Message of the `ValueError` raised by `ExtensionManager.__init__`. -/
def badNameMsg : String :=
  "name must match \x27^[a-z_][a-z0-9_]*$\x27"

/-- Message of the `PluginNotLoadedError`. -/
def pluginNotLoadedMsg (pluginname module message : String) : String :=
  "Unable to load plugin " ++ pluginname ++ " (" ++ module ++ "): " ++ message

/-- Message of the `PluginWithoutExtensionsError`. -/
def missingAttributeMsg (attr : String) : String :=
  "Missing attribute " ++ attr

/-- Exceptions the embedded code can raise.  Each constructor corresponds
to one Python exception type; `extensionNotFoundError` models the
`ExtensionNotFoundError` class that `extensionmanager.py` declares but
never raises (payload follows the spec's `NotFoundError(point, name)`),
`keyError` the `KeyError` escaping the dict access in
`_get_extension_class`, `assertionError` a failed `assert`, and
`extensionInitError` an arbitrary exception raised by an extension
class's own constructor. -/
inductive EMError where
  | typeError (msg : String)
  | valueError (msg : String)
  | extensionManagerError (msg : String)
  | pluginNotLoadedError (msg : String)
  | extensionNotFoundError (point name : String)
  | pluginWithoutExtensionsError (msg : String)
  | keyError (key : String)
  | assertionError
  | extensionInitError (clsname : String)
  deriving DecidableEq, Repr

/-- Name table of one extension point: the Python dict `name -> class`,
as an insertion-ordered association list. -/
abbrev NameTable := List (String × PyClass)

/-- The registry `self._registry`: Python dict `point -> name table`, as
an insertion-ordered association list. -/
abbrev Registry := List (PyClass × NameTable)

/-- Generic lookup in an insertion-ordered string-keyed dict. -/
def assocFind {α : Type} (l : List (String × α)) (n : String) : Option α :=
  match l with
  | [] => none
  | (m, v) :: rest => if m = n then some v else assocFind rest n

/-- Generic assignment `d[n] = v` in an insertion-ordered string-keyed
dict: updates in place when the key exists, appends otherwise. -/
def assocSet {α : Type} (l : List (String × α)) (n : String) (v : α) :
    List (String × α) :=
  match l with
  | [] => [(n, v)]
  | (m, w) :: rest => if m = n then (n, v) :: rest else (m, w) :: assocSet rest n v

/-- Lookup of a class key in the registry.  Python dict keys compare by
identity for plain classes, modelled by `id` equality; the stored
key/value pair is returned. -/
def regFindEntry (r : Registry) (p : PyClass) : Option (PyClass × NameTable) :=
  match r with
  | [] => none
  | (q, t) :: rest => if q.id = p.id then some (q, t) else regFindEntry rest p

/-- Name table registered for `p`, when present. -/
def regFind (r : Registry) (p : PyClass) : Option NameTable :=
  (regFindEntry r p).map Prod.snd

/-- Python `point in self._registry`. -/
def regContains (r : Registry) (p : PyClass) : Bool :=
  (regFindEntry r p).isSome

/-- Lookup in one point's name table (`ext_name in self._registry[ext_point]`
and `self._registry[ext_point][name]`). -/
def tblFind (t : NameTable) (n : String) : Option PyClass :=
  assocFind t n

/-- The state of an `ExtensionManager`: `self.__name__` and
`self._registry`.  The logger is ignored: it only affects log output. -/
structure EMState where
  name : String
  registry : Registry
  deriving DecidableEq, Repr

/-- Model of Python `s.replace('-', '_')` (single-character pattern). -/
def replaceDashes (s : String) : String :=
  ⟨s.data.map (fun c => if c = '-' then '_' else c)⟩

/-- First character class `[a-z_]` of the name pattern under
`re.IGNORECASE` (ASCII inputs). -/
def nameHeadOk (c : Char) : Bool :=
  c.isAlpha || c = '_'

/-- Tail character class `[a-z0-9_]` of the name pattern under
`re.IGNORECASE` (ASCII inputs). -/
def nameTailOk (c : Char) : Bool :=
  c.isAlphanum || c = '_'

/-- Full anchored match of `[a-z_][a-z0-9_]*` (case-insensitive). -/
def strictNameMatch (s : String) : Bool :=
  match s.data with
  | [] => false
  | c :: cs => nameHeadOk c && cs.all nameTailOk

/-- Model of `re.search(r'^[a-z_][a-z0-9_]*$', s, re.IGNORECASE)` being
successful.  In Python, `$` (without `re.MULTILINE`) also matches just
before one trailing newline, hence the second disjunct. -/
def reSearchNamePattern (s : String) : Bool :=
  strictNameMatch s ||
    (match s.data.getLast? with
     | some c => c = '\n' && strictNameMatch ⟨s.data.dropLast⟩
     | none => false)

/-- Model of `ExtensionManager.__init__(name)`: normalizes hyphens to
underscores, validates the result against the name pattern (raising
`ValueError` otherwise) and starts with an empty registry. -/
def initExtensionManager (name : String) : Except EMError EMState :=
  let name := replaceDashes name
  if !reSearchNamePattern name then
    .error (.valueError badNameMsg)
  else
    .ok { name := name, registry := [] }

/-- The helper `check_subclass` local to `register_extension_point`. -/
def checkSubclass (a b : PyClass) : Bool :=
  pyIssubclass a b || pyIssubclass b a

/-- Model of `ExtensionManager.register_extension_point`.  The result is
the raised exception (if any) together with the state at exit; every
`raise` in the source happens before the single mutation, so the error
branches return the input state.  The `inspect.isclass` check always
holds for `PyClass` values and is omitted. -/
def registerExtensionPoint (st : EMState) (p : PyClass) : Option EMError × EMState :=
  if !pyIssubclass p Extension then
    (some (.typeError (notValidExtensionMsg p)), st)
  else if p.extName.isSome then
    (some (.typeError extensionAsPointMsg), st)
  else if regContains st.registry p then
    (some (.extensionManagerError (duplicatePointMsg p.name)), st)
  else
    match st.registry.find? (fun kv => checkSubclass p kv.1) with
    | some kv =>
        (some (.extensionManagerError (hierarchyConflictMsg p.name kv.1.name)), st)
    | none =>
        (none, { st with registry := st.registry ++ [(p, [])] })

/-- The final insertion loop of `register_extension_class`: appends
`(n, cls)` to the table of every matching point. -/
def insertMatching (r : Registry) (cls : PyClass) (n : String) : Registry :=
  r.map (fun kv => if pyIssubclass cls kv.1 then (kv.1, kv.2 ++ [(n, cls)]) else kv)

/-- Model of `ExtensionManager.register_extension_class`: checks the base
type, the mandatory `__extension_name__`, collects matching points,
pre-checks name collisions against every matching point and only then
mutates the tables.  As in `registerExtensionPoint`, errors carry the
unmodified input state because every `raise` precedes the mutation. -/
def registerExtensionClass (st : EMState) (cls : PyClass) : Option EMError × EMState :=
  if !pyIssubclass cls Extension then
    (some (.typeError (notValidExtensionMsg cls)), st)
  else
    match cls.extName with
    | none => (some (.typeError (missingExtensionNameMsg cls)), st)
    | some extName =>
        let extensionPoints := st.registry.filter (fun kv => pyIssubclass cls kv.1)
        if extensionPoints.isEmpty then
          (some (.extensionManagerError (noMatchingPointMsg cls)), st)
        else
          match extensionPoints.findSome? (fun kv => tblFind kv.2 extName) with
          | some other =>
              (some (.extensionManagerError (nameCollisionMsg cls.name other.name)), st)
          | none =>
              (none, { st with registry := insertMatching st.registry cls extName })

/-- Model of `ExtensionManager._get_extension_class`.  The
`isinstance(name, str)` check always holds for `String` arguments and is
omitted; the final `self._registry[extension_point][name]` raises a bare
`KeyError(name)` when the name is missing. -/
def getExtensionClass (st : EMState) (p : PyClass) (n : String) : Except EMError PyClass :=
  if !pyIssubclass p Extension then
    .error (.typeError pointMustBeExtensionMsg)
  else
    match regFind st.registry p with
    | none => .error (.typeError (invalidPointMsg p))
    | some t =>
        match tblFind t n with
        | none => .error (.keyError n)
        | some c => .ok c

/-- Model of `ExtensionManager.get_extension_names_for`, fully consuming
the generator it returns: the `assert extension_point in self._registry`
fails (raising `AssertionError`, at the first iteration of the
generator) for unregistered points, otherwise the dict keys are yielded
in insertion order. -/
def getExtensionNamesFor (st : EMState) (p : PyClass) : Except EMError (List String) :=
  match regFind st.registry p with
  | none => .error .assertionError
  | some t => .ok (t.map Prod.fst)

/-- The extensions attribute name `'__{}_extensions__'.format(self.__name__)`
looked up on a plugin module. -/
def extensionsAttrName (st : EMState) : String :=
  "__" ++ st.name ++ "_extensions__"

/-- The fully qualified module path
`self.__name__ + ".plugins." + plugin.replace('-', '_')` derived by
`load_plugin`. -/
def fullPluginPath (st : EMState) (plugin : String) : String :=
  st.name ++ ".plugins." ++ replaceDashes plugin

/-- Model of an imported Python module: only the attributes that can hold
collections of extension classes matter here. -/
structure PyModule where
  attrs : List (String × List PyClass)
  deriving DecidableEq, Repr

/-- The `for ext in extensions: self.register_extension_class(ext)` loop of
`load_plugin`: registers the classes in order, propagating the first
registration error unmodified (classes already registered stay). -/
def registerAll (st : EMState) (exts : List PyClass) : Option EMError × EMState :=
  match exts with
  | [] => (none, st)
  | c :: rest =>
      match registerExtensionClass st c with
      | (some e, st') => (some e, st')
      | (none, st') => registerAll st' rest

/-- Model of `ExtensionManager.load_plugin`.  The import system is a
parameter `importMod` mapping a fully qualified module path to the
module, or to the message of the `ImportError` it raises (the message is
interpolated into the `PluginNotLoadedError`, wrapping the cause).  A
missing extensions attribute (`AttributeError` from `getattr`) becomes a
`PluginWithoutExtensionsError`. -/
def loadPlugin (importMod : String → Except String PyModule) (st : EMState)
    (plugin : String) : Option EMError × EMState :=
  let fullplugin := fullPluginPath st plugin
  match importMod fullplugin with
  | .error e =>
      (some (.pluginNotLoadedError (pluginNotLoadedMsg plugin fullplugin e)), st)
  | .ok m =>
      match assocFind m.attrs (extensionsAttrName st) with
      | none =>
          (some (.pluginWithoutExtensionsError
            (missingAttributeMsg (extensionsAttrName st))), st)
      | some extensions => registerAll st extensions

/-- Constructor arguments of an extension instance: the application
manager itself (`self` in `cls(self)`) or any other caller-supplied
value. -/
inductive PyArg where
  | app
  | val (n : Nat)
  deriving DecidableEq, Repr

/-- A constructed extension instance.  `objId` is the allocation number
modelling Python object identity (`is`-equality is `objId` equality,
since each construction allocates a fresh number). -/
structure Obj where
  objId : Nat
  clsId : Nat
  args : List PyArg
  deriving DecidableEq, Repr

/-- State of an application with the service mixin
(`appkit/application/services.py`): the underlying `ExtensionManager`
state, the service cache `self._services`, and the allocation counter
for object identities. -/
structure AppState where
  em : EMState
  services : List (String × Obj)
  nextObj : Nat
  deriving DecidableEq, Repr

/-- Model of calling `cls(*args)`: raises (an arbitrary, class-specific
exception) when `cls.ctorRaises`, otherwise allocates a fresh instance
recording the constructor arguments. -/
def construct (st : AppState) (cls : PyClass) (args : List PyArg) :
    Except EMError (Obj × AppState) :=
  if cls.ctorRaises then
    .error (.extensionInitError cls.name)
  else
    .ok ({ objId := st.nextObj, clsId := cls.id, args := args },
         { st with nextObj := st.nextObj + 1 })

/-- Model of `ApplicationMixin.__init__`: builds the base manager, then
registers the distinguished `Service` extension point and starts with an
empty service cache. -/
def appInit (name : String) : Except EMError AppState :=
  match initExtensionManager name with
  | .error e => .error e
  | .ok em =>
      match registerExtensionPoint em Service with
      | (some e, _) => .error e
      | (none, em') => .ok { em := em', services := [], nextObj := 0 }

/-- Model of `ApplicationMixin.register_extension_class`: performs the
base registration first, then — when the class matches the service point
— eagerly constructs `cls(self)` and caches the instance under the
class's `__extension_name__`.  When the eager construction raises, the
exception propagates but the base registration is left in place (the
source performs no rollback). -/
def appRegisterExtensionClass (st : AppState) (cls : PyClass) :
    Option EMError × AppState :=
  match registerExtensionClass st.em cls with
  | (some e, em') => (some e, { st with em := em' })
  | (none, em') =>
      if pyIssubclass cls Service then
        match construct { st with em := em' } cls [PyArg.app] with
        | .error e => (some e, { st with em := em' })
        | .ok (obj, st') =>
            match cls.extName with
            | some n => (none, { st' with services := assocSet st'.services n obj })
            | none => (none, st')
      else
        (none, { st with em := em' })

/-- Model of `ApplicationMixin.get_extension`: when the requested point is
(identity-) equal to the service point and the name is cached, the
cached instance is returned verbatim (the `args` are ignored); otherwise
the base `ExtensionManager.get_extension` resolves the class and calls
`cls(*args)`.  The `isinstance` asserts always hold for typed
arguments. -/
def appGetExtension (st : AppState) (p : PyClass) (n : String) (args : List PyArg) :
    Except EMError Obj × AppState :=
  match (if p.id = Service.id then assocFind st.services n else none) with
  | some o => (.ok o, st)
  | none =>
      match getExtensionClass st.em p n with
      | .error e => (.error e, st)
      | .ok cls =>
          match construct st cls args with
          | .error e => (.error e, st)
          | .ok (o, st') => (.ok o, st')

/-- Model of `ApplicationMixin.get_service`. -/
def appGetService (st : AppState) (n : String) : Except EMError Obj × AppState :=
  appGetExtension st Service n []

/-- Modelled from the spec: `NotFoundError(point, name)`, the error the
spec prescribes for a lookup miss, carrying both the point and the name.
The source declares the corresponding class `ExtensionNotFoundError` but
never raises it; the dict access raises a bare `KeyError(name)`. -/
def specNotFoundError (point : PyClass) (name : String) : EMError :=
  .extensionNotFoundError (fullClsName point) name

/-- Modelled from the spec: lookup-miss errors (`NotFoundError`,
`UnknownPointError`) are ordinary, expected failure modes callers are
expected to handle — in the code's exception vocabulary a `KeyError` or
the declared `ExtensionNotFoundError`, never a bare assertion failure or
an invalid-input `TypeError`. -/
def isOrdinaryLookupMissError (e : EMError) : Bool :=
  match e with
  | .keyError _ => true
  | .extensionNotFoundError _ _ => true
  | _ => false

/-! ### Concrete fixtures, mirroring the classes of the repository's tests -/

/-- An extension point, `class Animal(Extension)`. -/
def Animal : PyClass :=
  { id := 2, module := "sampleapp", name := "Animal", ancestors := [2, extensionId],
    extName := none, ctorRaises := false }

/-- An extension class, `class Dog(Animal)` named `dog`. -/
def Dog : PyClass :=
  { id := 3, module := "sampleapp", name := "Dog", ancestors := [3, 2, extensionId],
    extName := some "dog", ctorRaises := false }

/-- A second extension class under `Animal`, named `cat`. -/
def Cat : PyClass :=
  { id := 4, module := "sampleapp", name := "Cat", ancestors := [4, 2, extensionId],
    extName := some "cat", ctorRaises := false }

/-- Another `Animal` subclass whose name collides with `Dog`. -/
def Dog2 : PyClass :=
  { id := 5, module := "sampleapp", name := "Dog2", ancestors := [5, 2, extensionId],
    extName := some "dog", ctorRaises := false }

/-- A subclass of the `Animal` extension point (hierarchy conflict). -/
def AnimalSub : PyClass :=
  { id := 6, module := "sampleapp", name := "AnimalSub", ancestors := [6, 2, extensionId],
    extName := none, ctorRaises := false }

/-- A class unrelated to the `Extension` capability marker. -/
def Plain : PyClass :=
  { id := 7, module := "builtins", name := "Plain", ancestors := [7],
    extName := none, ctorRaises := false }

/-- A working service class, `class GoodSvc(Service)` named `good`. -/
def GoodSvc : PyClass :=
  { id := 8, module := "plug", name := "GoodSvc",
    ancestors := [8, serviceId, extensionId], extName := some "good",
    ctorRaises := false }

/-- A service class whose constructor raises, named `bad`. -/
def BadSvc : PyClass :=
  { id := 9, module := "plug", name := "BadSvc",
    ancestors := [9, serviceId, extensionId], extName := some "bad",
    ctorRaises := true }

/-- Manager state with an empty registry. -/
def exSt0 : EMState := { name := "app", registry := [] }

/-- Manager state after registering the `Animal` point. -/
def exSt1 : EMState := { name := "app", registry := [(Animal, [])] }

/-- Manager state after additionally registering `Dog`. -/
def exSt2 : EMState := { name := "app", registry := [(Animal, [("dog", Dog)])] }

/-- Application state right after `appInit "testapp"`. -/
def exApp0 : AppState :=
  { em := { name := "testapp", registry := [(Service, [])] }, services := [],
    nextObj := 0 }

/-- Application state with the `Animal` point also registered. -/
def exApp1 : AppState :=
  { em := { name := "testapp", registry := [(Service, []), (Animal, [("dog", Dog)])] },
    services := [], nextObj := 0 }

/-- Application state after successfully registering `GoodSvc` on
`exApp0`: the class sits in the `Service` table and its eagerly built
instance is cached. -/
def exApp2 : AppState :=
  { em := { name := "testapp", registry := [(Service, [("good", GoodSvc)])] },
    services := [("good", { objId := 0, clsId := 8, args := [PyArg.app] })],
    nextObj := 1 }

/-- Manager state after the base registration of `BadSvc` (the part of
`register_extension_class` that is not rolled back when the eager
construction fails). -/
def exEmSvcBad : EMState :=
  { name := "testapp", registry := [(Service, [("bad", BadSvc)])] }

/-- A well-formed plugin module exporting `GoodSvc`. -/
def mehModule : PyModule :=
  { attrs := [("__testapp_extensions__", [GoodSvc])] }

/-- A plugin module missing the extensions attribute. -/
def emptyModule : PyModule := { attrs := [] }

/-- A small import system: `testapp.plugins.meh` is importable and
well-formed, `testapp.plugins.meh2` is importable but declares no
extensions, anything else fails to import. -/
def exImport : String → Except String PyModule :=
  fun s =>
    if s = "testapp.plugins.meh" then .ok mehModule
    else if s = "testapp.plugins.meh2" then .ok emptyModule
    else .error ("No module named " ++ s)

/-! ### Helper lemmas about the registry structures -/

theorem assocFind_append_of_none {α : Type} {l : List (String × α)} (l' : List (String × α))
    {n : String} (h : assocFind l n = none) :
    assocFind (l ++ l') n = assocFind l' n := by
  induction l with
  | nil => rfl
  | cons kv rest ih =>
      obtain ⟨m, v⟩ := kv
      by_cases hm : m = n
      · simp [assocFind, hm] at h
      · simp [assocFind, hm] at h ⊢
        exact ih h

theorem assocFind_append_of_some {α : Type} {l : List (String × α)} (l' : List (String × α))
    {n : String} {v : α} (h : assocFind l n = some v) :
    assocFind (l ++ l') n = some v := by
  induction l with
  | nil => simp [assocFind] at h
  | cons kv rest ih =>
      obtain ⟨m, w⟩ := kv
      by_cases hm : m = n
      · simp [assocFind, hm] at h ⊢
        exact h
      · simp [assocFind, hm] at h ⊢
        exact ih h

theorem assocFind_assocSet_self {α : Type} (l : List (String × α)) (n : String) (v : α) :
    assocFind (assocSet l n v) n = some v := by
  induction l with
  | nil => simp [assocSet, assocFind]
  | cons kv rest ih =>
      obtain ⟨m, w⟩ := kv
      by_cases hm : m = n
      · simp [assocSet, assocFind, hm]
      · simp [assocSet, assocFind, hm]
        exact ih

theorem tblFind_none_count {t : NameTable} {n : String} (h : tblFind t n = none) :
    (t.map Prod.fst).count n = 0 := by
  induction t with
  | nil => rfl
  | cons kv rest ih =>
      obtain ⟨m, v⟩ := kv
      by_cases hm : m = n
      · simp [tblFind, assocFind, hm] at h
      · simp [tblFind, assocFind, hm] at h
        simp [List.count_cons, ih h, hm]

theorem regFindEntry_mem {r : Registry} {p q : PyClass} {t : NameTable}
    (h : regFindEntry r p = some (q, t)) : (q, t) ∈ r := by
  induction r with
  | nil => simp [regFindEntry] at h
  | cons kv rest ih =>
      obtain ⟨q', t'⟩ := kv
      by_cases hq : q'.id = p.id
      · simp [regFindEntry, hq] at h
        simp [h.1, h.2]
      · simp [regFindEntry, hq] at h
        exact List.mem_cons_of_mem _ (ih h)

theorem regFindEntry_append_of_none {r : Registry} (s : Registry) {p : PyClass}
    (h : regFindEntry r p = none) :
    regFindEntry (r ++ s) p = regFindEntry s p := by
  induction r with
  | nil => rfl
  | cons kv rest ih =>
      obtain ⟨q, t⟩ := kv
      by_cases hq : q.id = p.id
      · simp [regFindEntry, hq] at h
      · simp [regFindEntry, hq] at h ⊢
        exact ih h

theorem regFindEntry_insertMatching (r : Registry) (cls : PyClass) (n : String)
    (p : PyClass) :
    regFindEntry (insertMatching r cls n) p =
      (regFindEntry r p).map
        (fun qt => if pyIssubclass cls qt.1 then (qt.1, qt.2 ++ [(n, cls)]) else qt) := by
  induction r with
  | nil => rfl
  | cons kv rest ih =>
      obtain ⟨q, t⟩ := kv
      simp only [insertMatching, List.map_cons] at ih ⊢
      by_cases hs : pyIssubclass cls q = true
      · rw [if_pos hs]
        by_cases hq : q.id = p.id
        · simp [regFindEntry, hq, hs]
        · simp [regFindEntry, hq, ih]
      · rw [if_neg hs]
        by_cases hq : q.id = p.id
        · simp [regFindEntry, hq, hs]
        · simp [regFindEntry, hq, ih]

theorem find?_append_of_none {α : Type} {l : List α} (l' : List α) {f : α → Bool}
    (h : l.find? f = none) : (l ++ l').find? f = l'.find? f := by
  induction l with
  | nil => rfl
  | cons x rest ih =>
      by_cases hx : f x = true
      · rw [List.find?_cons_of_pos _ hx] at h
        exact absurd h (by simp)
      · rw [List.cons_append, List.find?_cons_of_neg _ hx]
        rw [List.find?_cons_of_neg _ hx] at h
        exact ih h

/-! ### Elimination lemmas for the registration operations -/

theorem registerExtensionPoint_ok {st st' : EMState} {p : PyClass}
    (h : registerExtensionPoint st p = (none, st')) :
    pyIssubclass p Extension = true ∧ p.extName = none ∧
      regContains st.registry p = false ∧
      (∀ kv ∈ st.registry, checkSubclass p kv.1 = false) ∧
      st'.name = st.name ∧ st'.registry = st.registry ++ [(p, [])] := by
  unfold registerExtensionPoint at h
  by_cases h1 : pyIssubclass p Extension = true
  · by_cases h2 : p.extName.isSome = true
    · simp [h1, h2] at h
    · by_cases h3 : regContains st.registry p = true
      · simp [h1, h2, h3] at h
      · cases hf : st.registry.find? (fun kv => checkSubclass p kv.1) with
        | some kv => simp [h1, h2, h3, hf] at h
        | none =>
            simp [h1, h2, h3, hf] at h
            refine ⟨h1, Option.not_isSome_iff_eq_none.mp h2, by simpa using h3,
              ?_, ?_, ?_⟩
            · intro kv hkv
              simpa using List.find?_eq_none.mp hf kv hkv
            · rw [← h]
            · rw [← h]
  · simp [h1] at h

theorem registerExtensionPoint_err {st st' : EMState} {p : PyClass} {e : EMError}
    (h : registerExtensionPoint st p = (some e, st')) : st' = st := by
  unfold registerExtensionPoint at h
  by_cases h1 : pyIssubclass p Extension = true
  · by_cases h2 : p.extName.isSome = true
    · simp [h1, h2] at h
      exact h.2.symm
    · by_cases h3 : regContains st.registry p = true
      · simp [h1, h2, h3] at h
        exact h.2.symm
      · cases hf : st.registry.find? (fun kv => checkSubclass p kv.1) with
        | some kv =>
            simp [h1, h2, h3, hf] at h
            exact h.2.symm
        | none => simp [h1, h2, h3, hf] at h
  · simp [h1] at h
    exact h.2.symm

theorem registerExtensionClass_ok {st st' : EMState} {cls : PyClass}
    (h : registerExtensionClass st cls = (none, st')) :
    pyIssubclass cls Extension = true ∧
      ∃ n, cls.extName = some n ∧
        (st.registry.filter (fun kv => pyIssubclass cls kv.1)).isEmpty = false ∧
        (∀ kv ∈ st.registry, pyIssubclass cls kv.1 = true → tblFind kv.2 n = none) ∧
        st'.name = st.name ∧ st'.registry = insertMatching st.registry cls n := by
  unfold registerExtensionClass at h
  by_cases h1 : pyIssubclass cls Extension = true
  · cases hn : cls.extName with
    | none => simp [h1, hn] at h
    | some n =>
        by_cases h2 :
            (st.registry.filter (fun kv => pyIssubclass cls kv.1)).isEmpty = true
        · simp [h1, hn, h2] at h
        · cases hf : (st.registry.filter (fun kv => pyIssubclass cls kv.1)).findSome?
              (fun kv => tblFind kv.2 n) with
          | some other => simp [h1, hn, h2, hf] at h
          | none =>
              simp [h1, hn, h2, hf] at h
              refine ⟨h1, n, rfl, by simpa using h2, ?_, ?_, ?_⟩
              · intro kv hkv hm
                exact List.findSome?_eq_none_iff.mp hf kv
                  (List.mem_filter.mpr ⟨hkv, hm⟩)
              · rw [← h]
              · rw [← h]
  · simp [h1] at h

theorem registerExtensionClass_err {st st' : EMState} {cls : PyClass} {e : EMError}
    (h : registerExtensionClass st cls = (some e, st')) : st' = st := by
  unfold registerExtensionClass at h
  by_cases h1 : pyIssubclass cls Extension = true
  · cases hn : cls.extName with
    | none =>
        simp [h1, hn] at h
        exact h.2.symm
    | some n =>
        by_cases h2 :
            (st.registry.filter (fun kv => pyIssubclass cls kv.1)).isEmpty = true
        · simp [h1, hn, h2] at h
          exact h.2.symm
        · cases hf : (st.registry.filter (fun kv => pyIssubclass cls kv.1)).findSome?
              (fun kv => tblFind kv.2 n) with
          | some other =>
              simp [h1, hn, h2, hf] at h
              exact h.2.symm
          | none => simp [h1, hn, h2, hf] at h
  · simp [h1] at h
    exact h.2.symm

theorem getExtensionClass_ok_elim {st : EMState} {p : PyClass} {n : String} {c : PyClass}
    (h : getExtensionClass st p n = .ok c) :
    pyIssubclass p Extension = true ∧
      ∃ q t, regFindEntry st.registry p = some (q, t) ∧ tblFind t n = some c := by
  unfold getExtensionClass at h
  by_cases h1 : pyIssubclass p Extension = true
  · cases hr : regFind st.registry p with
    | none => simp [h1, hr] at h
    | some t =>
        cases hm : tblFind t n with
        | none => simp [h1, hr, hm] at h
        | some c' =>
            simp [h1, hr, hm] at h
            obtain ⟨⟨q, t'⟩, hq, ht⟩ := Option.map_eq_some'.mp hr
            exact ⟨h1, q, t', hq, by rw [show t' = t from ht]; rw [hm, h]⟩
  · simp [h1] at h

theorem getExtensionClass_intro {st : EMState} {p : PyClass} {n : String} {c : PyClass}
    {q : PyClass} {t : NameTable}
    (hpE : pyIssubclass p Extension = true)
    (hq : regFindEntry st.registry p = some (q, t))
    (hm : tblFind t n = some c) :
    getExtensionClass st p n = .ok c := by
  unfold getExtensionClass
  simp [hpE, regFind, hq, hm]

theorem register_resolves {st st' : EMState} {cls p : PyClass} {t : NameTable} {n : String}
    (hok : registerExtensionClass st cls = (none, st'))
    (hn : cls.extName = some n)
    (hpE : pyIssubclass p Extension = true)
    (hreg : regFindEntry st.registry p = some (p, t))
    (hmatch : pyIssubclass cls p = true) :
    tblFind t n = none ∧
      regFindEntry st'.registry p = some (p, t ++ [(n, cls)]) ∧
      getExtensionClass st' p n = .ok cls := by
  obtain ⟨h1, n', hn', hne, hcoll, hname, hrw⟩ := registerExtensionClass_ok hok
  rw [hn] at hn'
  obtain rfl : n = n' := by injection hn'
  have hmem : (p, t) ∈ st.registry := regFindEntry_mem hreg
  have hfree : tblFind t n = none := hcoll (p, t) hmem hmatch
  have hentry : regFindEntry st'.registry p = some (p, t ++ [(n, cls)]) := by
    rw [hrw, regFindEntry_insertMatching, hreg]
    simp [hmatch]
  have hfind : tblFind (t ++ [(n, cls)]) n = some cls := by
    unfold tblFind at hfree ⊢
    rw [assocFind_append_of_none _ hfree]
    simp [assocFind]
  exact ⟨hfree, hentry, getExtensionClass_intro hpE hentry hfind⟩

theorem getExtensionClass_mono {st st' : EMState} {cls p : PyClass} {n : String}
    {c : PyClass}
    (hok : registerExtensionClass st cls = (none, st'))
    (h : getExtensionClass st p n = .ok c) :
    getExtensionClass st' p n = .ok c := by
  obtain ⟨hpE, q, t, hq, hm⟩ := getExtensionClass_ok_elim h
  obtain ⟨h1, n', hn', hne, hcoll, hname, hrw⟩ := registerExtensionClass_ok hok
  by_cases hcq : pyIssubclass cls q = true
  · have hentry : regFindEntry st'.registry p = some (q, t ++ [(n', cls)]) := by
      rw [hrw, regFindEntry_insertMatching, hq]
      simp [hcq]
    have hfind : tblFind (t ++ [(n', cls)]) n = some c := by
      unfold tblFind at hm ⊢
      exact assocFind_append_of_some _ hm
    exact getExtensionClass_intro hpE hentry hfind
  · have hentry : regFindEntry st'.registry p = some (q, t) := by
      rw [hrw, regFindEntry_insertMatching, hq]
      simp [hcq]
    exact getExtensionClass_intro hpE hentry hm

theorem registerAll_preserves {p : PyClass} {n : String} {c : PyClass} :
    ∀ (exts : List PyClass) (st : EMState),
      getExtensionClass st p n = .ok c →
      getExtensionClass (registerAll st exts).2 p n = .ok c := by
  intro exts
  induction exts with
  | nil => intro st h; exact h
  | cons e rest ih =>
      intro st h
      unfold registerAll
      cases hr : registerExtensionClass st e with
      | mk err st₂ =>
          cases err with
          | some e' =>
              simp only
              rw [registerExtensionClass_err hr]
              exact h
          | none =>
              simp only
              exact ih st₂ (getExtensionClass_mono hr h)

theorem regFindEntry_registerClass {st st' : EMState} {cls p : PyClass} {t : NameTable}
    (hok : registerExtensionClass st cls = (none, st'))
    (hreg : regFindEntry st.registry p = some (p, t)) :
    ∃ t', regFindEntry st'.registry p = some (p, t') := by
  obtain ⟨h1, n', hn', hne, hcoll, hname, hrw⟩ := registerExtensionClass_ok hok
  by_cases hcq : pyIssubclass cls p = true
  · exact ⟨t ++ [(n', cls)], by rw [hrw, regFindEntry_insertMatching, hreg]; simp [hcq]⟩
  · exact ⟨t, by rw [hrw, regFindEntry_insertMatching, hreg]; simp [hcq]⟩

theorem registerAll_resolves :
    ∀ (exts : List PyClass) (st st' : EMState),
      registerAll st exts = (none, st') →
      ∀ (p : PyClass) (t : NameTable), pyIssubclass p Extension = true →
        regFindEntry st.registry p = some (p, t) →
        ∀ cls ∈ exts, ∀ n, cls.extName = some n → pyIssubclass cls p = true →
          getExtensionClass st' p n = .ok cls := by
  intro exts
  induction exts with
  | nil =>
      intro st st' h p t hpE hreg cls hcls
      simp at hcls
  | cons e rest ih =>
      intro st st' h p t hpE hreg cls hcls n hn hmatch
      unfold registerAll at h
      cases hr : registerExtensionClass st e with
      | mk err st₁ =>
          cases err with
          | some e' =>
              rw [hr] at h
              simp at h
          | none =>
              rw [hr] at h
              simp only at h
              rcases List.mem_cons.mp hcls with hce | hce
              · subst hce
                have hres := (register_resolves hr hn hpE hreg hmatch).2.2
                have : (registerAll st₁ rest).2 = st' := by rw [h]
                rw [← this]
                exact registerAll_preserves rest st₁ hres
              · obtain ⟨t₁, hreg₁⟩ := regFindEntry_registerClass hr hreg
                exact ih st₁ st' h p t₁ hpE hreg₁ cls hce n hn hmatch

/-- Commutativity of the local helper `check_subclass`. -/
theorem checkSubclass_comm (a b : PyClass) : checkSubclass a b = checkSubclass b a :=
  Bool.or_comm _ _

/-- Registering a valid point `B` after a point `A` related to it by
ancestry fails with the hierarchy-conflict `ExtensionManagerError` naming
both points, and adds nothing. -/
theorem registerPoint_then_conflict {st stA : EMState} {A B : PyClass}
    (hAB : A.id ≠ B.id)
    (hsub : checkSubclass B A = true)
    (hBsub : pyIssubclass B Extension = true) (hBname : B.extName = none)
    (hBnotin : regContains st.registry B = false)
    (hBnoconf : ∀ kv ∈ st.registry, checkSubclass B kv.1 = false)
    (hA : registerExtensionPoint st A = (none, stA)) :
    registerExtensionPoint stA B
      = (some (.extensionManagerError (hierarchyConflictMsg B.name A.name)), stA) := by
  obtain ⟨-, -, -, -, -, hArw⟩ := registerExtensionPoint_ok hA
  have hnone : regFindEntry st.registry B = none := by
    rw [regContains] at hBnotin
    exact Option.not_isSome_iff_eq_none.mp (by simp [hBnotin])
  have hcont : regContains stA.registry B = false := by
    rw [regContains, hArw, regFindEntry_append_of_none _ hnone]
    simp [regFindEntry, hAB]
  have hfindst : st.registry.find? (fun kv => checkSubclass B kv.1) = none :=
    List.find?_eq_none.mpr (fun kv hkv => by simp [hBnoconf kv hkv])
  have hfind : stA.registry.find? (fun kv => checkSubclass B kv.1)
      = some (A, []) := by
    rw [hArw, find?_append_of_none _ hfindst]
    simp [List.find?_cons, hsub]
  unfold registerExtensionPoint
  simp [hBsub, hBname, hcont, hfind]

/-- C3: for two distinct extension points related by ancestry, registering
both fails on the second with the hierarchy-conflict error, in both orders,
and the second point is not added to the registry. -/
theorem C3_hierarchy_conflict_both_orders (st stA stB : EMState) (A B : PyClass)
    (hAB : A.id ≠ B.id)
    (hsub : checkSubclass A B = true)
    (hA : registerExtensionPoint st A = (none, stA))
    (hB : registerExtensionPoint st B = (none, stB)) :
    registerExtensionPoint stA B
      = (some (.extensionManagerError (hierarchyConflictMsg B.name A.name)), stA) ∧
    registerExtensionPoint stB A
      = (some (.extensionManagerError (hierarchyConflictMsg A.name B.name)), stB) := by
  obtain ⟨hBsub, hBname, hBnotin, hBnoconf, -, -⟩ := registerExtensionPoint_ok hB
  obtain ⟨hAsub, hAname, hAnotin, hAnoconf, -, -⟩ := registerExtensionPoint_ok hA
  constructor
  · exact registerPoint_then_conflict hAB (by rw [checkSubclass_comm]; exact hsub)
      hBsub hBname hBnotin hBnoconf hA
  · exact registerPoint_then_conflict (fun h => hAB h.symm) hsub
      hAsub hAname hAnotin hAnoconf hB

/-- C3 witness: `AnimalSub` is a subclass of `Animal`; with an empty
registry, registering the two points fails on the second in either
order. -/
theorem C3_hierarchy_conflict_both_orders_witness :
    registerExtensionPoint { name := "app", registry := [(Animal, [])] } AnimalSub
      = (some (.extensionManagerError (hierarchyConflictMsg "AnimalSub" "Animal")),
         { name := "app", registry := [(Animal, [])] }) ∧
    registerExtensionPoint { name := "app", registry := [(AnimalSub, [])] } Animal
      = (some (.extensionManagerError (hierarchyConflictMsg "Animal" "AnimalSub")),
         { name := "app", registry := [(AnimalSub, [])] }) :=
  C3_hierarchy_conflict_both_orders exSt0
    { name := "app", registry := [(Animal, [])] }
    { name := "app", registry := [(AnimalSub, [])] }
    Animal AnimalSub (by decide) (by decide) (by decide) (by decide)

/-- C4: `register_point` fails with the invalid-extension `TypeError` for a
class outside the `Extension` hierarchy, with the extension-as-point
`TypeError` for a class carrying `__extension_name__`, and with the
duplicate `ExtensionManagerError` for an already registered point, leaving
the registry unchanged in each failing case; on success it inserts an
empty name table, so `names_for` immediately yields the empty sequence. -/
theorem C4_register_point_errors (st : EMState) (p : PyClass) :
    (pyIssubclass p Extension = false →
      registerExtensionPoint st p = (some (.typeError (notValidExtensionMsg p)), st)) ∧
    (pyIssubclass p Extension = true → p.extName.isSome = true →
      registerExtensionPoint st p = (some (.typeError extensionAsPointMsg), st)) ∧
    (pyIssubclass p Extension = true → p.extName = none →
      regContains st.registry p = true →
      registerExtensionPoint st p
        = (some (.extensionManagerError (duplicatePointMsg p.name)), st)) ∧
    (∀ st', registerExtensionPoint st p = (none, st') →
      regFind st'.registry p = some [] ∧ getExtensionNamesFor st' p = .ok []) := by
  refine ⟨?_, ?_, ?_, ?_⟩
  · intro h1
    unfold registerExtensionPoint
    simp [h1]
  · intro h1 h2
    unfold registerExtensionPoint
    simp [h1, h2]
  · intro h1 h2 h3
    unfold registerExtensionPoint
    simp [h1, h2, h3]
  · intro st' h
    obtain ⟨-, -, hnotin, -, -, hrw⟩ := registerExtensionPoint_ok h
    have hnone : regFindEntry st.registry p = none := by
      rw [regContains] at hnotin
      exact Option.not_isSome_iff_eq_none.mp (by simp [hnotin])
    have hentry : regFindEntry st'.registry p = some (p, []) := by
      rw [hrw, regFindEntry_append_of_none _ hnone]
      simp [regFindEntry]
    constructor
    · rw [regFind, hentry]
      rfl
    · rw [getExtensionNamesFor, regFind, hentry]
      rfl

/-- C4 witness: the three failure cases and the success case at concrete
inputs. -/
theorem C4_register_point_errors_witness :
    registerExtensionPoint exSt0 Plain
      = (some (.typeError (notValidExtensionMsg Plain)), exSt0) ∧
    registerExtensionPoint exSt0 Dog
      = (some (.typeError extensionAsPointMsg), exSt0) ∧
    registerExtensionPoint exSt1 Animal
      = (some (.extensionManagerError (duplicatePointMsg "Animal")), exSt1) ∧
    (regFind exSt1.registry Animal = some [] ∧
      getExtensionNamesFor exSt1 Animal = .ok []) :=
  ⟨(C4_register_point_errors exSt0 Plain).1 (by decide),
   (C4_register_point_errors exSt0 Dog).2.1 (by decide) (by decide),
   (C4_register_point_errors exSt1 Animal).2.2.1 (by decide) (by decide) (by decide),
   (C4_register_point_errors exSt0 Animal).2.2.2 exSt1 (by decide)⟩

/-- C1: `register_class` is atomic.  Any failure leaves the registry
exactly as it was (all raises precede the mutation loop), so lookups and
name sequences are unaffected; in the name-collision scenario the failed
call leaves the colliding name resolving to the previously registered
class, and in the no-matching-point scenario the call fails with the
no-matching-point error leaving every name sequence unchanged. -/
theorem C1_register_class_atomic (st : EMState) (cls : PyClass) :
    (∀ e st₂, registerExtensionClass st cls = (some e, st₂) →
      st₂ = st ∧
      (∀ p n, getExtensionClass st₂ p n = getExtensionClass st p n) ∧
      (∀ p, getExtensionNamesFor st₂ p = getExtensionNamesFor st p)) ∧
    (∀ n p t old, pyIssubclass cls Extension = true → cls.extName = some n →
      pyIssubclass p Extension = true →
      regFindEntry st.registry p = some (p, t) → pyIssubclass cls p = true →
      tblFind t n = some old →
      (∃ msg, (registerExtensionClass st cls).1
          = some (.extensionManagerError msg)) ∧
      getExtensionClass (registerExtensionClass st cls).2 p n = .ok old) ∧
    (∀ n, pyIssubclass cls Extension = true → cls.extName = some n →
      st.registry.filter (fun kv => pyIssubclass cls kv.1) = [] →
      registerExtensionClass st cls
        = (some (.extensionManagerError (noMatchingPointMsg cls)), st)) := by
  refine ⟨?_, ?_, ?_⟩
  · intro e st₂ h
    obtain rfl : st₂ = st := registerExtensionClass_err h
    exact ⟨rfl, fun p n => rfl, fun p => rfl⟩
  · intro n p t old h1 hn hpE hreg hmatch hold
    have hmemf : (p, t) ∈ st.registry.filter (fun kv => pyIssubclass cls kv.1) :=
      List.mem_filter.mpr ⟨regFindEntry_mem hreg, hmatch⟩
    have hne : (st.registry.filter (fun kv => pyIssubclass cls kv.1)).isEmpty
        = false := by
      cases hfe : st.registry.filter (fun kv => pyIssubclass cls kv.1) with
      | nil => rw [hfe] at hmemf; simp at hmemf
      | cons a l => rfl
    cases hf : (st.registry.filter (fun kv => pyIssubclass cls kv.1)).findSome?
        (fun kv => tblFind kv.2 n) with
    | none =>
        have := List.findSome?_eq_none_iff.mp hf (p, t) hmemf
        rw [hold] at this
        simp at this
    | some other =>
        have hres : registerExtensionClass st cls
            = (some (.extensionManagerError (nameCollisionMsg cls.name other.name)),
               st) := by
          unfold registerExtensionClass
          simp [h1, hn, hne, hf]
        refine ⟨⟨nameCollisionMsg cls.name other.name, by rw [hres]⟩, ?_⟩
        rw [hres]
        exact getExtensionClass_intro hpE hreg hold
  · intro n h1 hn hfe
    unfold registerExtensionClass
    simp [h1, hn, hfe]

/-- C1 witness: a collision failure (`Dog2` against the registered `Dog`)
and a no-matching-point failure (`Dog` against an empty registry) at
concrete states. -/
theorem C1_register_class_atomic_witness :
    ((registerExtensionClass exSt2 Dog2).2 = exSt2) ∧
    ((∃ msg, (registerExtensionClass exSt2 Dog2).1
        = some (.extensionManagerError msg)) ∧
      getExtensionClass (registerExtensionClass exSt2 Dog2).2 Animal "dog"
        = .ok Dog) ∧
    registerExtensionClass exSt0 Dog
      = (some (.extensionManagerError (noMatchingPointMsg Dog)), exSt0) :=
  ⟨((C1_register_class_atomic exSt2 Dog2).1
      (.extensionManagerError (nameCollisionMsg "Dog2" "Dog")) exSt2 (by decide)).1,
   (C1_register_class_atomic exSt2 Dog2).2.1 "dog" Animal [("dog", Dog)] Dog
      (by decide) (by decide) (by decide) (by decide) (by decide) (by decide),
   (C1_register_class_atomic exSt0 Dog).2.2 "dog" (by decide) (by decide) (by decide)⟩

/-- C2: after a successful registration of class C named N, C sits under N
in the table of every matching registered point P, `lookup(P, N)` returns
exactly C, and N occurs exactly once in `names_for(P)`. -/
theorem C2_register_class_visible (st st' : EMState) (cls p : PyClass)
    (t : NameTable) (n : String)
    (hok : registerExtensionClass st cls = (none, st'))
    (hn : cls.extName = some n)
    (hpE : pyIssubclass p Extension = true)
    (hreg : regFindEntry st.registry p = some (p, t))
    (hmatch : pyIssubclass cls p = true) :
    (∃ t', regFind st'.registry p = some t' ∧ (n, cls) ∈ t') ∧
    getExtensionClass st' p n = .ok cls ∧
    (∃ l, getExtensionNamesFor st' p = .ok l ∧ l.count n = 1) := by
  obtain ⟨hfree, hentry, hlook⟩ := register_resolves hok hn hpE hreg hmatch
  refine ⟨⟨t ++ [(n, cls)], by rw [regFind, hentry]; rfl, by simp⟩, hlook, ?_⟩
  refine ⟨(t ++ [(n, cls)]).map Prod.fst, ?_, ?_⟩
  · rw [getExtensionNamesFor, regFind, hentry]
    rfl
  · have h0 := tblFind_none_count hfree
    simp [List.count_append, h0]

/-- C2 witness: registering `Dog` under the registered `Animal` point makes
`lookup(Animal, "dog")` return `Dog`, with `"dog"` occurring once in the
name sequence. -/
theorem C2_register_class_visible_witness :
    (∃ t', regFind exSt2.registry Animal = some t' ∧ ("dog", Dog) ∈ t') ∧
    getExtensionClass exSt2 Animal "dog" = .ok Dog ∧
    (∃ l, getExtensionNamesFor exSt2 Animal = .ok l ∧ l.count "dog" = 1) :=
  C2_register_class_visible exSt1 exSt2 Dog Animal [] "dog"
    (by decide) (by decide) (by decide) (by decide) (by decide)

/-- C7 counterexample: at a registered point, looking up an unregistered
name raises a bare `KeyError` carrying only the name; this is not the
`NotFoundError(point, name)` the claim states. -/
theorem C7_lookup_counterexample :
    getExtensionClass exSt2 Animal "fish" = .error (.keyError "fish") ∧
    EMError.keyError "fish" ≠ specNotFoundError Animal "fish" := by
  decide

/-- C7 (amended): for every registered point and unregistered name, lookup
fails with a bare `KeyError` carrying only the name (never the declared
`ExtensionNotFoundError` identifying point and name, which the source
never raises); the lookup is a pure read, so the registry is unchanged. -/
theorem C7_lookup_miss_keyerror (st : EMState) (p q : PyClass) (t : NameTable)
    (n : String)
    (hpE : pyIssubclass p Extension = true)
    (hreg : regFindEntry st.registry p = some (q, t))
    (hmiss : tblFind t n = none) :
    getExtensionClass st p n = .error (.keyError n) ∧
    EMError.keyError n ≠ specNotFoundError p n := by
  constructor
  · unfold getExtensionClass
    simp [hpE, regFind, hreg, hmiss]
  · intro hcontra
    simp [specNotFoundError] at hcontra

/-- C7 witness: a concrete lookup miss. -/
theorem C7_lookup_miss_keyerror_witness :
    getExtensionClass exSt2 Animal "x" = .error (.keyError "x") ∧
    EMError.keyError "x" ≠ specNotFoundError Animal "x" :=
  C7_lookup_miss_keyerror exSt2 Animal Animal [("dog", Dog)] "x"
    (by decide) (by decide) (by decide)

/-- C8 counterexample: consuming `names_for` on a never-registered point
fails with a bare `AssertionError` from the `assert` in the generator, not
with an ordinary lookup-miss error as the claim states. -/
theorem C8_names_for_counterexample :
    getExtensionNamesFor exSt2 Dog = .error .assertionError ∧
    isOrdinaryLookupMissError .assertionError = false := by
  decide

/-- C8 (amended): consuming `names_for(point)` fails with a bare
`AssertionError` (raised only once the returned generator is iterated) for
every point never registered — not with an ordinary lookup-miss error; for
a registered point every consumption yields the same sequence of the
registered names in insertion order (the operation is a pure read, so the
sequence can be obtained again after being consumed), and a successful
class registration appends the new name at the end of the sequence. -/
theorem C8_names_for_sequence (st : EMState) (p : PyClass) :
    (regFindEntry st.registry p = none →
      getExtensionNamesFor st p = .error .assertionError ∧
      isOrdinaryLookupMissError .assertionError = false) ∧
    (∀ q t, regFindEntry st.registry p = some (q, t) →
      getExtensionNamesFor st p = .ok (t.map Prod.fst)) ∧
    (∀ cls n st' t, registerExtensionClass st cls = (none, st') →
      cls.extName = some n → pyIssubclass cls p = true →
      regFindEntry st.registry p = some (p, t) →
      getExtensionNamesFor st' p = .ok (t.map Prod.fst ++ [n])) := by
  refine ⟨?_, ?_, ?_⟩
  · intro h
    rw [getExtensionNamesFor, regFind, h]
    exact ⟨rfl, rfl⟩
  · intro q t h
    rw [getExtensionNamesFor, regFind, h]
    rfl
  · intro cls n st' t hok hn hmatch hreg
    obtain ⟨h1, n', hn', hne, hcoll, hname, hrw⟩ := registerExtensionClass_ok hok
    rw [hn] at hn'
    obtain rfl : n = n' := by injection hn'
    have hentry : regFindEntry st'.registry p = some (p, t ++ [(n, cls)]) := by
      rw [hrw, regFindEntry_insertMatching, hreg]
      simp [hmatch]
    rw [getExtensionNamesFor, regFind, hentry]
    simp

/-- C8 witness: the assertion failure, the insertion-order sequence and the
appended name at concrete states. -/
theorem C8_names_for_sequence_witness :
    (getExtensionNamesFor exSt0 Animal = .error .assertionError ∧
      isOrdinaryLookupMissError .assertionError = false) ∧
    getExtensionNamesFor exSt2 Animal = .ok ["dog"] ∧
    getExtensionNamesFor exSt2 Animal = .ok ([] ++ ["dog"]) :=
  ⟨(C8_names_for_sequence exSt0 Animal).1 (by decide),
   (C8_names_for_sequence exSt2 Animal).2.1 Animal [("dog", Dog)] (by decide),
   (C8_names_for_sequence exSt1 Animal).2.2 Dog "dog" exSt2 [] (by decide)
     (by decide) (by decide) (by decide)⟩

/-- Shape of a successful service-class registration at the application
layer: the base registration succeeded, the constructor did not raise,
and the fresh instance (built with the application as sole constructor
argument) was cached under the class's extension name. -/
theorem appRegister_service_ok {st st₁ : AppState} {cls : PyClass} {n : String}
    (hok : appRegisterExtensionClass st cls = (none, st₁))
    (hsvc : pyIssubclass cls Service = true)
    (hn : cls.extName = some n) :
    ∃ em', registerExtensionClass st.em cls = (none, em') ∧
      cls.ctorRaises = false ∧
      st₁ = { em := em',
              services := assocSet st.services n
                { objId := st.nextObj, clsId := cls.id, args := [PyArg.app] },
              nextObj := st.nextObj + 1 } := by
  unfold appRegisterExtensionClass at hok
  cases hbase : registerExtensionClass st.em cls with
  | mk err em' =>
      cases err with
      | some e => rw [hbase] at hok; simp at hok
      | none =>
          rw [hbase] at hok
          by_cases hcr : cls.ctorRaises = true
          · simp [hsvc, construct, hcr] at hok
          · simp [hsvc, construct, hcr, hn] at hok
            exact ⟨em', rfl, by simpa using hcr, hok.symm⟩

/-- C5 counterexample: when the eager construction of `BadSvc` raises,
`register_class` fails and the service cache stays empty, yet the class
remains registered in the `Service` point's table — contradicting the
claim that the class is absent from every extension point's table after
the failing call. -/
theorem C5_service_failure_counterexample :
    (appRegisterExtensionClass exApp0 BadSvc).1
      = some (.extensionInitError "BadSvc") ∧
    assocFind (appRegisterExtensionClass exApp0 BadSvc).2.services "bad" = none ∧
    getExtensionClass (appRegisterExtensionClass exApp0 BadSvc).2.em Service "bad"
      = .ok BadSvc := by
  decide

/-- C5 (amended): when the eager construction of a service instance during
`register_class` raises, the exception escalates at registration time and
the service name is absent from the service cache, but the class remains
registered in every matching extension point's table — the base
registration performed before the construction is not rolled back. -/
theorem C5_service_ctor_failure (st : AppState) (stE : EMState) (cls : PyClass)
    (n : String)
    (hbase : registerExtensionClass st.em cls = (none, stE))
    (hsvc : pyIssubclass cls Service = true)
    (hfail : cls.ctorRaises = true)
    (hn : cls.extName = some n)
    (hpre : assocFind st.services n = none) :
    appRegisterExtensionClass st cls
      = (some (.extensionInitError cls.name), { st with em := stE }) ∧
    assocFind (appRegisterExtensionClass st cls).2.services n = none ∧
    (∀ p t, pyIssubclass p Extension = true →
      regFindEntry st.em.registry p = some (p, t) → pyIssubclass cls p = true →
      getExtensionClass (appRegisterExtensionClass st cls).2.em p n = .ok cls) := by
  have hres : appRegisterExtensionClass st cls
      = (some (.extensionInitError cls.name), { st with em := stE }) := by
    unfold appRegisterExtensionClass
    rw [hbase]
    simp [hsvc, construct, hfail]
  refine ⟨hres, ?_, ?_⟩
  · rw [hres]
    exact hpre
  · intro p t hpE hreg hmatch
    rw [hres]
    exact (register_resolves hbase hn hpE hreg hmatch).2.2

/-- C5 witness: the amended behavior at the concrete failing service. -/
theorem C5_service_ctor_failure_witness :
    appRegisterExtensionClass exApp0 BadSvc
      = (some (.extensionInitError "BadSvc"),
         { em := exEmSvcBad, services := [], nextObj := 0 }) ∧
    assocFind (appRegisterExtensionClass exApp0 BadSvc).2.services "bad" = none ∧
    getExtensionClass (appRegisterExtensionClass exApp0 BadSvc).2.em Service "bad"
      = .ok BadSvc :=
  have h := C5_service_ctor_failure exApp0 exEmSvcBad BadSvc "bad"
    (by decide) (by decide) (by decide) (by decide) (by decide)
  ⟨h.1, h.2.1, h.2.2 Service [] (by decide) (by decide) (by decide)⟩

/-- C6: after a service class named `n` registers successfully, its
instance was allocated exactly once, at registration time, with the
application as sole constructor argument; every later `get_service` and
`get_extension` call on the service point returns that identical cached
instance with the state (and so the allocation counter) unchanged and any
`args` ignored; for a non-service point, two `get_extension` calls return
distinct freshly constructed instances. -/
theorem C6_service_singleton (st st₁ : AppState) (cls : PyClass) (n : String)
    (hok : appRegisterExtensionClass st cls = (none, st₁))
    (hsvc : pyIssubclass cls Service = true)
    (hn : cls.extName = some n) :
    (∃ o, assocFind st₁.services n = some o ∧
      o.args = [PyArg.app] ∧ o.clsId = cls.id ∧ o.objId = st.nextObj ∧
      st₁.nextObj = st.nextObj + 1 ∧
      appGetService st₁ n = (.ok o, st₁) ∧
      (∀ args, appGetExtension st₁ Service n args = (.ok o, st₁))) ∧
    (∀ (st₂ : AppState) (p : PyClass) (m : String) (c : PyClass) (args : List PyArg),
      p.id ≠ Service.id →
      getExtensionClass st₂.em p m = .ok c → c.ctorRaises = false →
      ∃ o₁ st₃ o₂ st₄,
        appGetExtension st₂ p m args = (.ok o₁, st₃) ∧
        appGetExtension st₃ p m args = (.ok o₂, st₄) ∧
        o₁ ≠ o₂) := by
  constructor
  · obtain ⟨em', hbase, hcr, hst₁⟩ := appRegister_service_ok hok hsvc hn
    refine ⟨{ objId := st.nextObj, clsId := cls.id, args := [PyArg.app] },
      ?_, rfl, rfl, rfl, by rw [hst₁], ?_, ?_⟩
    · rw [hst₁]
      exact assocFind_assocSet_self _ _ _
    · unfold appGetService appGetExtension
      rw [if_pos rfl, hst₁]
      rw [assocFind_assocSet_self]
    · intro args
      unfold appGetExtension
      rw [if_pos rfl, hst₁]
      rw [assocFind_assocSet_self]
  · intro st₂ p m c args hp hlook hcr
    refine ⟨{ objId := st₂.nextObj, clsId := c.id, args := args },
      { st₂ with nextObj := st₂.nextObj + 1 },
      { objId := st₂.nextObj + 1, clsId := c.id, args := args },
      { st₂ with nextObj := st₂.nextObj + 2 }, ?_, ?_, ?_⟩
    · unfold appGetExtension
      rw [if_neg hp]
      rw [hlook]
      simp [construct, hcr]
    · unfold appGetExtension
      rw [if_neg hp]
      rw [show ({ st₂ with nextObj := st₂.nextObj + 1 } : AppState).em = st₂.em
        from rfl, hlook]
      simp [construct, hcr]
    · intro hcontra
      have := congrArg Obj.objId hcontra
      simp at this

/-- C6 witness: `GoodSvc` cached once with the app as argument and served
identically with args ignored; at a non-service point two fetches of
`Dog` yield distinct instances. -/
theorem C6_service_singleton_witness :
    (∃ o, assocFind exApp2.services "good" = some o ∧
      o.args = [PyArg.app] ∧ o.clsId = GoodSvc.id ∧ o.objId = exApp0.nextObj ∧
      exApp2.nextObj = exApp0.nextObj + 1 ∧
      appGetService exApp2 "good" = (.ok o, exApp2) ∧
      (∀ args, appGetExtension exApp2 Service "good" args = (.ok o, exApp2))) ∧
    (∃ o₁ st₃ o₂ st₄,
      appGetExtension exApp1 Animal "dog" [PyArg.val 1] = (.ok o₁, st₃) ∧
      appGetExtension st₃ Animal "dog" [PyArg.val 1] = (.ok o₂, st₄) ∧
      o₁ ≠ o₂) :=
  have h := C6_service_singleton exApp0 exApp2 GoodSvc "good"
    (by decide) (by decide) (by decide)
  ⟨h.1, h.2 exApp1 Animal "dog" Dog [PyArg.val 1] (by decide) (by decide) (by decide)⟩

/-- C9: `load_plugin` derives the module path
`<host-app-name>.plugins.<plugin-name>` with hyphens in either segment
normalized to underscores; an import failure becomes a
`PluginNotLoadedError` wrapping the underlying cause, a missing
extensions attribute a `PluginWithoutExtensionsError`; otherwise the
declared classes are fed to `register_class` in order — the loop's
outcome (including any registration error) is propagated unmodified — so
after a successful load every declared class is resolvable via lookup
under every matching registered point. -/
theorem C9_load_plugin (importMod : String → Except String PyModule)
    (st : EMState) (plugin : String) :
    (∀ raw, initExtensionManager raw = .ok st →
      fullPluginPath st plugin
        = replaceDashes raw ++ ".plugins." ++ replaceDashes plugin) ∧
    (∀ emsg, importMod (fullPluginPath st plugin) = .error emsg →
      loadPlugin importMod st plugin
        = (some (.pluginNotLoadedError
            (pluginNotLoadedMsg plugin (fullPluginPath st plugin) emsg)), st)) ∧
    (∀ m, importMod (fullPluginPath st plugin) = .ok m →
      assocFind m.attrs (extensionsAttrName st) = none →
      loadPlugin importMod st plugin
        = (some (.pluginWithoutExtensionsError
            (missingAttributeMsg (extensionsAttrName st))), st)) ∧
    (∀ m exts, importMod (fullPluginPath st plugin) = .ok m →
      assocFind m.attrs (extensionsAttrName st) = some exts →
      loadPlugin importMod st plugin = registerAll st exts) ∧
    (∀ st' m exts, loadPlugin importMod st plugin = (none, st') →
      importMod (fullPluginPath st plugin) = .ok m →
      assocFind m.attrs (extensionsAttrName st) = some exts →
      ∀ cls ∈ exts, ∀ n, cls.extName = some n →
        ∀ p t, pyIssubclass p Extension = true →
          regFindEntry st.registry p = some (p, t) →
          pyIssubclass cls p = true →
          getExtensionClass st' p n = .ok cls) := by
  refine ⟨?_, ?_, ?_, ?_, ?_⟩
  · intro raw hinit
    unfold initExtensionManager at hinit
    by_cases hp : reSearchNamePattern (replaceDashes raw) = true
    · simp [hp] at hinit
      rw [fullPluginPath, ← hinit]
    · simp [hp] at hinit
  · intro emsg himp
    unfold loadPlugin
    simp only [himp]
  · intro m himp hattr
    unfold loadPlugin
    simp only [himp, hattr]
  · intro m exts himp hattr
    unfold loadPlugin
    simp only [himp, hattr]
  · intro st' m exts hload himp hattr
    unfold loadPlugin at hload
    simp only [himp, hattr] at hload
    intro cls hcls n hn p t hpE hreg hmatch
    exact registerAll_resolves exts st st' hload p t hpE hreg cls hcls n hn hmatch

/-- C9 witness: the path derivation with hyphen normalization, a module
that fails to load, a module without the extensions attribute, and a
successful load after which the declared class resolves. -/
theorem C9_load_plugin_witness :
    fullPluginPath { name := "test_app", registry := [] } "my-plug"
      = replaceDashes "test-app" ++ ".plugins." ++ replaceDashes "my-plug" ∧
    loadPlugin exImport exApp0.em "nope"
      = (some (.pluginNotLoadedError
          (pluginNotLoadedMsg "nope" (fullPluginPath exApp0.em "nope")
            "No module named testapp.plugins.nope")), exApp0.em) ∧
    loadPlugin exImport exApp0.em "meh2"
      = (some (.pluginWithoutExtensionsError
          (missingAttributeMsg (extensionsAttrName exApp0.em))), exApp0.em) ∧
    getExtensionClass exApp2.em Service "good" = .ok GoodSvc :=
  ⟨(C9_load_plugin exImport { name := "test_app", registry := [] } "my-plug").1
      "test-app" (by decide),
   (C9_load_plugin exImport exApp0.em "nope").2.1
      "No module named testapp.plugins.nope" (by decide),
   (C9_load_plugin exImport exApp0.em "meh2").2.2.1 emptyModule
      (by decide) (by decide),
   (C9_load_plugin exImport exApp0.em "meh").2.2.2.2 exApp2.em mehModule [GoodSvc]
      (by decide) (by decide) (by decide) GoodSvc (by decide) "good" (by decide)
      Service [] (by decide) (by decide) (by decide)⟩

/-- C10: `ExtensionManager.__init__` first normalizes every hyphen in the
supplied name to an underscore and then raises `ValueError` exactly when
the normalized name fails the case-insensitive search of the anchored
pattern `^[a-z_][a-z0-9_]*$`; an empty name or one starting with a digit
is rejected, while `my-app` is accepted and stored as `my_app`, the name
used for the plugin module paths and the extensions attribute. -/
theorem C10_init_name_validation (name : String) :
    (initExtensionManager name = .error (.valueError badNameMsg) ↔
      reSearchNamePattern (replaceDashes name) = false) ∧
    (∀ st, initExtensionManager name = .ok st →
      st.name = replaceDashes name ∧ st.registry = [] ∧
      (∀ plugin, fullPluginPath st plugin
        = replaceDashes name ++ ".plugins." ++ replaceDashes plugin) ∧
      extensionsAttrName st = "__" ++ replaceDashes name ++ "_extensions__") ∧
    initExtensionManager "" = .error (.valueError badNameMsg) ∧
    initExtensionManager "1app" = .error (.valueError badNameMsg) ∧
    initExtensionManager "my-app" = .ok { name := "my_app", registry := [] } := by
  refine ⟨?_, ?_, by decide, by decide, by decide⟩
  · unfold initExtensionManager
    by_cases hp : reSearchNamePattern (replaceDashes name) = true
    · simp [hp]
    · simp [hp]
  · intro st hinit
    unfold initExtensionManager at hinit
    by_cases hp : reSearchNamePattern (replaceDashes name) = true
    · simp [hp] at hinit
      rw [← hinit]
      exact ⟨rfl, rfl, fun plugin => rfl, rfl⟩
    · simp [hp] at hinit

/-- C10 witness: the accepted hyphenated name stored normalized and used
for module paths and the extensions attribute. -/
theorem C10_init_name_validation_witness :
    ({ name := "my_app", registry := [] } : EMState).name = replaceDashes "my-app" ∧
    ({ name := "my_app", registry := [] } : EMState).registry = [] ∧
    (∀ plugin, fullPluginPath { name := "my_app", registry := [] } plugin
      = replaceDashes "my-app" ++ ".plugins." ++ replaceDashes plugin) ∧
    extensionsAttrName { name := "my_app", registry := [] }
      = "__" ++ replaceDashes "my-app" ++ "_extensions__" :=
  (C10_init_name_validation "my-app").2.1 { name := "my_app", registry := [] }
    (by decide)

end ExtMgr
